import Mathlib

/-!
Verification of `read-orders.py`: a script that expands two hardcoded glob
patterns, filters candidate paths by a substring and a suffix test, and for
each accepted path prints a "Found:" line and then either a separator plus
the file content, or an error line when reading fails.

The filesystem is modelled as an oracle (`FS`): `globExpand` gives the result
of `glob.glob` on a pattern (either a list of paths or a raised error), and
`readFile` gives the outcome of `open(f)` / `file.read()` on a path.  Output
is modelled as a list of print events (`OutLine`) together with a rendering
into the strings actually printed.
-/

/-- The hardcoded pattern list of `read-orders.py`, line 5-8, first entry. -/
def pattern1 : String := "src/app/[locale]/account/orders/[id]/page.tsx"

/-- The hardcoded pattern list of `read-orders.py`, line 5-8, second entry. -/
def pattern2 : String := "src/app/*/account/orders/*/page.tsx"

/-- `patterns = [...]` from line 5-8 of the script. -/
def patterns : List String := [pattern1, pattern2]

/-- Byte-for-byte prefix test on character lists (helper for the string
operations below). -/
def isPrefixList : List Char → List Char → Bool
  | [], _ => true
  | _ :: _, [] => false
  | a :: as, b :: bs => (a == b) && isPrefixList as bs

/-- Substring containment on character lists: `pat` occurs contiguously in
`s`.  Embeds Python's `pat in s` on strings. -/
def hasSubList (pat : List Char) : List Char → Bool
  | [] => pat.isEmpty
  | c :: rest => isPrefixList pat (c :: rest) || hasSubList pat rest

/-- Embedding of Python `sub in s` (substring containment). -/
def pyContains (s sub : String) : Bool := hasSubList sub.data s.data

/-- Embedding of Python `s.endswith(suffix)`. -/
def pyEndsWith (s suffix : String) : Bool :=
  isPrefixList suffix.data.reverse s.data.reverse

/-- The filter on line 13 of the script:
`if 'orders' in f and f.endswith('.tsx')`. -/
def accept (f : String) : Bool := pyContains f "orders" && pyEndsWith f ".tsx"

/-- Outcome of `open(f, 'r', encoding='utf-8')` followed by `file.read()` on
a path: the open call itself may raise (no handle is ever acquired), the
read/decode may raise (the handle was acquired and the `with` block closes
it), or both succeed yielding the full content.  The string of the failure
cases is the rendered exception message `{e}`. -/
inductive ReadOutcome where
  | openFail (msg : String)
  | readFail (msg : String)
  | success (content : String)
deriving DecidableEq

/-- The filesystem oracle: what `glob.glob` returns for a pattern (or the
error it raises), and what opening/reading a path yields. -/
structure FS where
  globExpand : String → Except String (List String)
  readFile : String → ReadOutcome

/-- One `print(...)` event of the script. -/
inductive OutLine where
  | found (path : String)
  | sep
  | content (text : String)
  | readError (path : String) (msg : String)
deriving DecidableEq

/-- The separator `"=" * 80` printed on line 18. -/
def sepLine : String := String.mk (List.replicate 80 '=')

/-- The string each print event writes (one `print` call each). -/
def OutLine.render : OutLine → String
  | .found p => "Found: " ++ p
  | .sep => sepLine
  | .content c => c
  | .readError p m => "Error reading " ++ p ++ ": " ++ m

/-- Body of the inner loop (lines 13-21): filter the candidate, print the
`Found:` line, then open/read inside `try`, printing the separator and the
content on success and the error line when the open or the read raises. -/
def processFile (fs : FS) (f : String) : List OutLine :=
  if accept f then
    OutLine.found f ::
      (match fs.readFile f with
       | .success c => [OutLine.sep, OutLine.content c]
       | .openFail e => [OutLine.readError f e]
       | .readFail e => [OutLine.readError f e])
  else []

/-- The pattern loop (lines 10-21): for each pattern call `glob.glob`
(uncaught, so a raised error is fatal) and process each returned file. -/
def runPatterns (fs : FS) : List String → Except String (List OutLine)
  | [] => Except.ok []
  | p :: ps =>
    match fs.globExpand p with
    | Except.error e => Except.error e
    | Except.ok files =>
      match runPatterns fs ps with
      | Except.error e => Except.error e
      | Except.ok rest => Except.ok (files.flatMap (processFile fs) ++ rest)

/-- The whole script: run the loop over the hardcoded pattern list.
`Except.ok out` is a normal termination (exit code 0) having printed `out`;
`Except.error e` is an unhandled exception escaping the script. -/
def run (fs : FS) : Except String (List OutLine) := runPatterns fs patterns

/-- The paths announced by `Found:` events of an output. -/
def foundOf (out : List OutLine) : List String :=
  out.filterMap fun l =>
    match l with
    | OutLine.found p => some p
    | _ => none

lemma foundOf_processFile (fs : FS) (f : String) :
    foundOf (processFile fs f) = if accept f then [f] else [] := by
  unfold processFile foundOf
  cases h : accept f
  · simp
  · cases fs.readFile f <;> simp

lemma foundOf_append (o1 o2 : List OutLine) :
    foundOf (o1 ++ o2) = foundOf o1 ++ foundOf o2 := by
  unfold foundOf
  exact List.filterMap_append o1 o2 _

lemma foundOf_flatMap (fs : FS) (l : List String) :
    foundOf (l.flatMap (processFile fs)) = l.filter accept := by
  induction l with
  | nil => rfl
  | cons f rest ih =>
    rw [List.flatMap_cons, foundOf_append, foundOf_processFile, ih]
    cases h : accept f <;> simp [List.filter, h]

lemma run_ok (fs : FS) (l1 l2 : List String)
    (h1 : fs.globExpand pattern1 = Except.ok l1)
    (h2 : fs.globExpand pattern2 = Except.ok l2) :
    run fs = Except.ok (l1.flatMap (processFile fs) ++ l2.flatMap (processFile fs)) := by
  unfold run patterns
  simp [runPatterns, h1, h2]

/-! ### Sample filesystem states (used by the witnesses) -/

/-- The example path from the spec's test scenario. -/
def samplePath : String := "src/app/en/account/orders/42/page.tsx"

/-- A state where the second pattern finds `samplePath` and reading succeeds
with content "X". -/
def okFS : FS where
  globExpand := fun p =>
    if p = pattern1 then Except.ok []
    else if p = pattern2 then Except.ok [samplePath] else Except.ok []
  readFile := fun _ => ReadOutcome.success "X"

/-- A state where the found file cannot be decoded as UTF-8 text. -/
def errFS : FS where
  globExpand := fun p =>
    if p = pattern2 then Except.ok [samplePath] else Except.ok []
  readFile := fun _ => ReadOutcome.readFail "bad utf-8"

/-- A state where glob returns only a candidate that fails the filter. -/
def noMatchFS : FS where
  globExpand := fun p =>
    if p = pattern1 then Except.ok ["src/app/en/account/orders/42/page.ts"]
    else Except.ok []
  readFile := fun _ => ReadOutcome.success "X"

/-- A state where glob expansion itself raises. -/
def badGlobFS : FS where
  globExpand := fun _ => Except.error "glob failure"
  readFile := fun _ => ReadOutcome.success "X"

lemma processFile_not_accept (fs : FS) (f : String) (h : accept f = false) :
    processFile fs f = [] := by
  unfold processFile
  simp [h]

lemma flatMap_processFile_nil (fs : FS) (l : List String)
    (h : ∀ f ∈ l, accept f = false) : l.flatMap (processFile fs) = [] := by
  induction l with
  | nil => rfl
  | cons f rest ih =>
    rw [List.flatMap_cons, processFile_not_accept fs f (h f (by simp)),
      List.nil_append]
    exact ih fun g hg => h g (by simp [hg])

/-! ### Claims -/

/-- C1: for every filesystem state, the paths printed in `Found:` lines are
exactly the glob expansion of the first pattern filtered by the
orders-substring/.tsx-suffix test, followed by the filtered expansion of the
second pattern, duplicates preserved per pattern occurrence. -/
theorem C1_found_paths (fs : FS) (l1 l2 : List String) (out : List OutLine)
    (h1 : fs.globExpand pattern1 = Except.ok l1)
    (h2 : fs.globExpand pattern2 = Except.ok l2)
    (h3 : run fs = Except.ok out) :
    foundOf out = l1.filter accept ++ l2.filter accept := by
  rw [run_ok fs l1 l2 h1 h2] at h3
  injection h3 with h
  rw [← h, foundOf_append, foundOf_flatMap, foundOf_flatMap]

/-- Witness for C1 at a concrete state. -/
theorem C1_found_paths_witness :
    foundOf [OutLine.found samplePath, OutLine.sep, OutLine.content "X"]
      = List.filter accept [] ++ List.filter accept [samplePath] :=
  C1_found_paths okFS [] [samplePath]
    [OutLine.found samplePath, OutLine.sep, OutLine.content "X"] rfl rfl (by rfl)

/-- C2: for every accepted path whose read succeeds, the script prints
exactly the `Found:` line, then the separator (80 repeated '='), then the
content verbatim, in that order. -/
theorem C2_success_output (fs : FS) (f c : String)
    (ha : accept f = true) (hr : fs.readFile f = ReadOutcome.success c) :
    (processFile fs f).map OutLine.render = ["Found: " ++ f, sepLine, c] ∧
    sepLine.length = 80 ∧ sepLine.data.all (fun ch => ch == '=') = true := by
  refine ⟨?_, rfl, by decide⟩
  unfold processFile
  simp [ha, hr, OutLine.render]

/-- Witness for C2 at a concrete state. -/
theorem C2_success_output_witness :
    (processFile okFS samplePath).map OutLine.render
      = ["Found: " ++ samplePath, sepLine, "X"] ∧
    sepLine.length = 80 ∧ sepLine.data.all (fun ch => ch == '=') = true :=
  C2_success_output okFS samplePath "X" (by decide) rfl

/-- C3: for every accepted path whose open, read, or decode fails, the
script prints the `Found:` line then the error line (no separator and no
content), and every remaining candidate is still processed: the output of a
candidate list decomposes around the failing file. -/
theorem C3_error_output (fs : FS) (f e : String) (l1 l2 : List String)
    (ha : accept f = true)
    (hr : fs.readFile f = ReadOutcome.openFail e ∨
          fs.readFile f = ReadOutcome.readFail e) :
    (processFile fs f).map OutLine.render
      = ["Found: " ++ f, "Error reading " ++ f ++ ": " ++ e] ∧
    (l1 ++ f :: l2).flatMap (processFile fs)
      = l1.flatMap (processFile fs) ++ processFile fs f
          ++ l2.flatMap (processFile fs) := by
  constructor
  · unfold processFile
    rcases hr with hr | hr <;> simp [ha, hr, OutLine.render]
  · simp [List.flatMap_append, List.flatMap_cons, List.append_assoc]

/-- Witness for C3 at a concrete state. -/
theorem C3_error_output_witness :
    (processFile errFS samplePath).map OutLine.render
      = ["Found: " ++ samplePath, "Error reading " ++ samplePath ++ ": " ++ "bad utf-8"] ∧
    ([] ++ samplePath :: []).flatMap (processFile errFS)
      = ([] : List String).flatMap (processFile errFS) ++ processFile errFS samplePath
          ++ ([] : List String).flatMap (processFile errFS) :=
  C3_error_output errFS samplePath "bad utf-8" [] [] (by decide) (Or.inr rfl)

/-- C4: when no glob match passes the filter, the script prints nothing and
terminates normally (modelled by `Except.ok []`, the empty output with no
escaping exception). -/
theorem C4_no_match_silent (fs : FS) (l1 l2 : List String)
    (h1 : fs.globExpand pattern1 = Except.ok l1)
    (h2 : fs.globExpand pattern2 = Except.ok l2)
    (hall : ∀ f ∈ l1 ++ l2, accept f = false) :
    run fs = Except.ok [] := by
  rw [run_ok fs l1 l2 h1 h2,
    flatMap_processFile_nil fs l1 fun f hf => hall f (by simp [hf]),
    flatMap_processFile_nil fs l2 fun f hf => hall f (by simp [hf])]
  rfl

/-- Witness for C4 at a concrete state. -/
theorem C4_no_match_silent_witness : run noMatchFS = Except.ok [] :=
  C4_no_match_silent noMatchFS ["src/app/en/account/orders/42/page.ts"] []
    rfl rfl (by decide)

/-- C5: patterns are processed in declared order: the whole output is the
concatenation of the outputs of the first pattern's matches (in the order
glob returned them) followed by those of the second pattern's matches. -/
theorem C5_pattern_order (fs : FS) (l1 l2 : List String)
    (h1 : fs.globExpand pattern1 = Except.ok l1)
    (h2 : fs.globExpand pattern2 = Except.ok l2) :
    run fs = Except.ok
      (l1.flatMap (processFile fs) ++ l2.flatMap (processFile fs)) :=
  run_ok fs l1 l2 h1 h2

/-- Witness for C5 at a concrete state. -/
theorem C5_pattern_order_witness :
    run okFS = Except.ok
      (([] : List String).flatMap (processFile okFS)
        ++ [samplePath].flatMap (processFile okFS)) :=
  C5_pattern_order okFS [] [samplePath] rfl rfl

/-! ### State-threaded model (for the read-only / idempotence claim)

`glob.glob` and `open(..., 'r')`/`read()` only read the filesystem, so each
is modelled as a transaction returning its result together with the
(unchanged) filesystem state; the script never invokes any mutating call. -/

/-- The `glob.glob(pattern)` call as a filesystem transaction. -/
def globStep (fs : FS) (p : String) : Except String (List String) × FS :=
  (fs.globExpand p, fs)

/-- The `open(f)`/`read()` pair as a filesystem transaction. -/
def openReadStep (fs : FS) (f : String) : ReadOutcome × FS :=
  (fs.readFile f, fs)

/-- `processFile` threading the filesystem state through its transaction. -/
def processFileSt (fs : FS) (f : String) : List OutLine × FS :=
  if accept f then
    match openReadStep fs f with
    | (r, fs1) =>
      (OutLine.found f ::
        (match r with
         | .success c => [OutLine.sep, OutLine.content c]
         | .openFail e => [OutLine.readError f e]
         | .readFail e => [OutLine.readError f e]), fs1)
  else ([], fs)

/-- The inner loop threading the filesystem state. -/
def processListSt : FS → List String → List OutLine × FS
  | fs, [] => ([], fs)
  | fs, f :: rest =>
    match processFileSt fs f with
    | (o1, fs1) =>
      match processListSt fs1 rest with
      | (o2, fs2) => (o1 ++ o2, fs2)

/-- The pattern loop threading the filesystem state. -/
def runPatternsSt : FS → List String → Except String (List OutLine) × FS
  | fs, [] => (Except.ok [], fs)
  | fs, p :: ps =>
    match globStep fs p with
    | (Except.error e, fs1) => (Except.error e, fs1)
    | (Except.ok files, fs1) =>
      match processListSt fs1 files with
      | (o1, fs2) =>
        match runPatternsSt fs2 ps with
        | (Except.error e, fs3) => (Except.error e, fs3)
        | (Except.ok rest, fs3) => (Except.ok (o1 ++ rest), fs3)

/-- The whole script, returning its output and the final filesystem state. -/
def runWithFS (fs : FS) : Except String (List OutLine) × FS :=
  runPatternsSt fs patterns

lemma processFileSt_eq (fs : FS) (f : String) :
    processFileSt fs f = (processFile fs f, fs) := by
  unfold processFileSt processFile openReadStep
  cases accept f <;> simp

lemma processListSt_eq (fs : FS) (l : List String) :
    processListSt fs l = (l.flatMap (processFile fs), fs) := by
  induction l with
  | nil => rfl
  | cons f rest ih =>
    unfold processListSt
    rw [processFileSt_eq]
    simp [ih]

lemma runPatternsSt_eq (fs : FS) (ps : List String) :
    runPatternsSt fs ps = (runPatterns fs ps, fs) := by
  induction ps with
  | nil => rfl
  | cons p rest ih =>
    unfold runPatternsSt runPatterns globStep
    cases fs.globExpand p with
    | error e => rfl
    | ok files =>
      simp only [processListSt_eq, ih]
      cases runPatterns fs rest <;> rfl

/-- C6: the script is read-only and idempotent: running it leaves the
filesystem state unchanged, and running it again on the resulting state
produces the identical output. -/
theorem C6_read_only_idempotent (fs : FS) :
    (runWithFS fs).2 = fs ∧
    (runWithFS ((runWithFS fs).2)).1 = (runWithFS fs).1 := by
  unfold runWithFS
  rw [runPatternsSt_eq]
  exact ⟨rfl, by rw [runPatternsSt_eq]⟩

/-! ### Handle accounting (for the resource-release claim) -/

/-- A file-handle event. -/
inductive HEvent where
  | acquire (path : String)
  | release (path : String)
deriving DecidableEq

/-- Handle events of one candidate: none when the filter rejects the path or
the `open` call itself raises (no handle was acquired); otherwise the `with`
block acquires the handle and releases it both when the read succeeds and
when the read or decode raises. -/
def fileEvents (fs : FS) (f : String) : List HEvent :=
  if accept f then
    match fs.readFile f with
    | .openFail _ => []
    | .readFail _ => [HEvent.acquire f, HEvent.release f]
    | .success _ => [HEvent.acquire f, HEvent.release f]
  else []

/-- Stack discipline check: every release closes the most recently acquired
handle, and no handle stays open at the end. -/
def balancedFrom : List String → List HEvent → Bool
  | stack, [] => stack.isEmpty
  | stack, HEvent.acquire f :: es => balancedFrom (f :: stack) es
  | [], HEvent.release _ :: _ => false
  | g :: stack, HEvent.release f :: es => (f == g) && balancedFrom stack es

lemma balancedFrom_fileEvents (fs : FS) (f : String) (es : List HEvent) :
    balancedFrom [] (fileEvents fs f ++ es) = balancedFrom [] es := by
  unfold fileEvents
  cases accept f
  · simp
  · cases fs.readFile f <;> simp [balancedFrom]

lemma events_balanced (fs : FS) (l : List String) :
    balancedFrom [] (l.flatMap (fileEvents fs)) = true := by
  induction l with
  | nil => rfl
  | cons f rest ih =>
    rw [List.flatMap_cons, balancedFrom_fileEvents]
    exact ih

/-- C7: each accepted file's handle is acquired and released before the next
candidate is processed, and it is released even when the read or decode
raises; over any candidate sequence the handle events form a balanced,
per-file bracketed trace ending with no open handle. -/
theorem C7_handle_release (fs : FS) (f e : String) (l : List String)
    (ha : accept f = true) (hr : fs.readFile f = ReadOutcome.readFail e) :
    fileEvents fs f = [HEvent.acquire f, HEvent.release f] ∧
    balancedFrom [] (l.flatMap (fileEvents fs)) = true := by
  refine ⟨?_, events_balanced fs l⟩
  unfold fileEvents
  rw [ha, hr]
  rfl

/-- Witness for C7 at a concrete state. -/
theorem C7_handle_release_witness :
    fileEvents errFS samplePath
      = [HEvent.acquire samplePath, HEvent.release samplePath] ∧
    balancedFrom [] ([samplePath].flatMap (fileEvents errFS)) = true :=
  C7_handle_release errFS samplePath "bad utf-8" [samplePath] (by decide) rfl

/-- C8: the script aborts with an unhandled error exactly when a glob
expansion raises (the first pattern's, or the second pattern's after the
first succeeded); failures while opening, reading, or decoding a file never
escape, so when both expansions succeed the run terminates normally. -/
theorem C8_glob_errors_fatal (fs : FS) (e : String) :
    run fs = Except.error e ↔
      fs.globExpand pattern1 = Except.error e ∨
      (∃ l1, fs.globExpand pattern1 = Except.ok l1 ∧
             fs.globExpand pattern2 = Except.error e) := by
  unfold run patterns
  cases h1 : fs.globExpand pattern1 <;>
    cases h2 : fs.globExpand pattern2 <;>
      simp [runPatterns, h1, h2]

/-! ### Glob pattern semantics

Modelled from Python's `glob`/`fnmatch`: a pattern is compiled into tokens
(literal character, `*`, `?`, or a `[...]` character class), and a path
matches when the tokens consume it entirely, with no wildcard ever matching
the path separator '/' (glob matches pattern segments against individual
directory entries, which never contain '/'). -/

/-- Scan for the closing ']' of a character class, returning the body before
it and the remaining pattern. -/
def findClose : List Char → Option (List Char × List Char)
  | [] => none
  | c :: cs =>
    if c = ']' then some ([], cs)
    else
      match findClose cs with
      | some (body, rest) => some (c :: body, rest)
      | none => none

/-- Class body after the optional negation marker: a ']' in first position
stands for itself, the search for the closing ']' starts after it. -/
def parseClassBody : List Char → Option (List Char × List Char)
  | ']' :: rest =>
    (match findClose rest with
     | some (body, rest1) => some (']' :: body, rest1)
     | none => none)
  | p => findClose p

/-- Parse a `[...]` class (the '[' already consumed): optional '!' negation,
then the body up to the closing ']'.  `none` when there is no closing ']',
in which case fnmatch treats '[' as a literal character. -/
def parseClass (p : List Char) : Option (Bool × List Char × List Char) :=
  match p with
  | '!' :: p1 =>
    (match parseClassBody p1 with
     | some (body, rest) => some (true, body, rest)
     | none => none)
  | _ =>
    match parseClassBody p with
    | some (body, rest) => some (false, body, rest)
    | none => none

/-- Membership of a character in a class body, with `a-z` ranges. -/
def classMatchBody : List Char → Char → Bool
  | [], _ => false
  | a :: '-' :: b :: rest, c => (a ≤ c && c ≤ b) || classMatchBody rest c
  | a :: rest, c => (a == c) || classMatchBody rest c

/-- A compiled pattern token. -/
inductive GlobTok where
  | lit (c : Char)
  | star
  | anyChar
  | cls (negated : Bool) (body : List Char)
deriving DecidableEq

/-- Fuel-indexed pattern compiler (the fuel is an upper bound on the pattern
length; each step consumes at least one pattern character). -/
def compileGlobF : Nat → List Char → List GlobTok
  | 0, _ => []
  | _, [] => []
  | fuel + 1, c :: ps =>
    if c = '*' then GlobTok.star :: compileGlobF fuel ps
    else if c = '?' then GlobTok.anyChar :: compileGlobF fuel ps
    else if c = '[' then
      match parseClass ps with
      | some (neg, body, rest) => GlobTok.cls neg body :: compileGlobF fuel rest
      | none => GlobTok.lit '[' :: compileGlobF fuel ps
    else GlobTok.lit c :: compileGlobF fuel ps

/-- Compile a glob pattern into tokens. -/
def compileGlob (p : List Char) : List GlobTok := compileGlobF p.length p

/-- The suffixes of `s` reachable by letting '*' consume a (possibly empty)
run of non-'/' characters. -/
def starSuffixes : List Char → List (List Char)
  | [] => [[]]
  | c :: cs => (c :: cs) :: (if c = '/' then [] else starSuffixes cs)

/-- Match a compiled pattern against a path. -/
def matchToks : List GlobTok → List Char → Bool
  | [], s => s.isEmpty
  | GlobTok.star :: ts, s => (starSuffixes s).any fun t => matchToks ts t
  | GlobTok.anyChar :: ts, s =>
    (match s with
     | [] => false
     | c :: cs => (c != '/') && matchToks ts cs)
  | GlobTok.cls neg body :: ts, s =>
    (match s with
     | [] => false
     | c :: cs => (classMatchBody body c != neg) && (c != '/') && matchToks ts cs)
  | GlobTok.lit c :: ts, s =>
    (match s with
     | [] => false
     | d :: ds => (c == d) && matchToks ts ds)

/-- Whether `glob.glob(p)` can return the path `f`: the compiled pattern
matches the whole path. -/
def globMatch (p f : String) : Bool := matchToks (compileGlob p.data) f.data

lemma matchToks_nil (s : List Char) : matchToks [] s = true ↔ s = [] := by
  cases s <;> simp [matchToks]

lemma matchToks_lit (c : Char) (ts : List GlobTok) (s : List Char) :
    matchToks (GlobTok.lit c :: ts) s = true ↔
      ∃ s1, s = c :: s1 ∧ matchToks ts s1 = true := by
  cases s with
  | nil => simp [matchToks]
  | cons d ds =>
    simp only [matchToks, Bool.and_eq_true, beq_iff_eq, List.cons.injEq]
    constructor
    · rintro ⟨rfl, h⟩
      exact ⟨ds, ⟨rfl, rfl⟩, h⟩
    · rintro ⟨s1, ⟨rfl, rfl⟩, h⟩
      exact ⟨rfl, h⟩

lemma matchToks_lits (lit : List Char) (ts : List GlobTok) (s : List Char) :
    matchToks (lit.map GlobTok.lit ++ ts) s = true ↔
      ∃ s1, s = lit ++ s1 ∧ matchToks ts s1 = true := by
  induction lit generalizing s with
  | nil => simp
  | cons c cs ih =>
    simp only [List.map_cons, List.cons_append, matchToks_lit, ih]
    constructor
    · rintro ⟨s1, rfl, s2, rfl, h⟩
      exact ⟨s2, rfl, h⟩
    · rintro ⟨s2, rfl, h⟩
      exact ⟨cs ++ s2, rfl, s2, rfl, h⟩

lemma matchToks_lits_end (lit s : List Char) :
    matchToks (lit.map GlobTok.lit) s = true ↔ s = lit := by
  have h0 := matchToks_lits lit [] s
  rw [List.append_nil] at h0
  rw [h0]
  constructor
  · rintro ⟨s1, rfl, h⟩
    rw [matchToks_nil] at h
    rw [h, List.append_nil]
  · rintro rfl
    exact ⟨[], (List.append_nil _).symm, rfl⟩

lemma matchToks_cls (neg : Bool) (body : List Char) (ts : List GlobTok) (s : List Char) :
    matchToks (GlobTok.cls neg body :: ts) s = true ↔
      ∃ c s1, s = c :: s1 ∧ (classMatchBody body c != neg) = true ∧
        c ≠ '/' ∧ matchToks ts s1 = true := by
  cases s with
  | nil => simp [matchToks]
  | cons d ds =>
    constructor
    · intro h
      simp only [matchToks, Bool.and_eq_true] at h
      exact ⟨d, ds, rfl, h.1.1, bne_iff_ne.mp h.1.2, h.2⟩
    · rintro ⟨c, s1, heq, h1, h2, h3⟩
      cases heq
      simp only [matchToks, Bool.and_eq_true]
      exact ⟨⟨h1, bne_iff_ne.mpr h2⟩, h3⟩

lemma matchToks_star (ts : List GlobTok) (s : List Char) :
    matchToks (GlobTok.star :: ts) s = true ↔
      ∃ a b, s = a ++ b ∧ (∀ c ∈ a, c ≠ '/') ∧ matchToks ts b = true := by
  induction s with
  | nil =>
    constructor
    · intro h
      simp only [matchToks, starSuffixes, List.any_cons, List.any_nil,
        Bool.or_false] at h
      exact ⟨[], [], rfl, by simp, h⟩
    · rintro ⟨a, b, hab, _, hb⟩
      rcases List.append_eq_nil.mp hab.symm with ⟨rfl, rfl⟩
      simp only [matchToks, starSuffixes, List.any_cons, List.any_nil,
        Bool.or_false]
      exact hb
  | cons c cs ih =>
    constructor
    · intro h
      simp only [matchToks, starSuffixes, List.any_cons] at h
      rw [Bool.or_eq_true] at h
      rcases h with h1 | h2
      · exact ⟨[], c :: cs, rfl, by simp, h1⟩
      · by_cases hc : c = '/'
        · rw [if_pos hc] at h2
          simp at h2
        · rw [if_neg hc] at h2
          have h3 : matchToks (GlobTok.star :: ts) cs = true := h2
          rcases ih.mp h3 with ⟨a, b, hab, hns, hb⟩
          refine ⟨c :: a, b, by rw [hab, List.cons_append], ?_, hb⟩
          intro x hx
          rcases List.mem_cons.mp hx with rfl | hx
          · exact hc
          · exact hns x hx
    · rintro ⟨a, b, hab, hns, hb⟩
      simp only [matchToks, starSuffixes, List.any_cons]
      rw [Bool.or_eq_true]
      cases a with
      | nil =>
        rw [List.nil_append] at hab
        refine Or.inl ?_
        rw [hab]
        exact hb
      | cons a0 as =>
        rw [List.cons_append, List.cons.injEq] at hab
        rcases hab with ⟨rfl, hcs⟩
        have hc : c ≠ '/' := hns c (List.mem_cons_self c as)
        refine Or.inr ?_
        rw [if_neg hc]
        exact ih.mpr ⟨as, b, hcs, fun x hx => hns x (List.mem_cons_of_mem c hx), hb⟩

lemma compile_pattern1 :
    compileGlob pattern1.data =
      "src/app/".data.map GlobTok.lit
        ++ GlobTok.cls false "locale".data
          :: ("/account/orders/".data.map GlobTok.lit
            ++ GlobTok.cls false "id".data :: "/page.tsx".data.map GlobTok.lit) := by
  decide

lemma compile_pattern2 :
    compileGlob pattern2.data =
      "src/app/".data.map GlobTok.lit
        ++ GlobTok.star
          :: ("/account/orders/".data.map GlobTok.lit
            ++ GlobTok.star :: "/page.tsx".data.map GlobTok.lit) := by
  decide

lemma pattern1_shape (f : String) (h : globMatch pattern1 f = true) :
    ∃ c d, classMatchBody "locale".data c = true ∧ classMatchBody "id".data d = true ∧
      f.data = "src/app/".data ++ c :: ("/account/orders/".data ++ d :: "/page.tsx".data) := by
  unfold globMatch at h
  rw [compile_pattern1, matchToks_lits] at h
  rcases h with ⟨s1, hf, h⟩
  rw [matchToks_cls] at h
  rcases h with ⟨c, s2, hs1, hc, _, h⟩
  rw [matchToks_lits] at h
  rcases h with ⟨s3, hs2, h⟩
  rw [matchToks_cls] at h
  rcases h with ⟨d, s4, hs3, hd, _, h⟩
  rw [matchToks_lits_end] at h
  subst h
  refine ⟨c, d, by simpa using hc, by simpa using hd, ?_⟩
  rw [hf, hs1, hs2, hs3]

lemma pattern2_shape (f : String) (h : globMatch pattern2 f = true) :
    ∃ a b, (∀ c ∈ a, c ≠ '/') ∧ (∀ c ∈ b, c ≠ '/') ∧
      f.data = "src/app/".data
        ++ (a ++ ("/account/orders/".data ++ (b ++ "/page.tsx".data))) := by
  unfold globMatch at h
  rw [compile_pattern2, matchToks_lits] at h
  rcases h with ⟨s1, hf, h⟩
  rw [matchToks_star] at h
  rcases h with ⟨a, s2, hs1, ha, h⟩
  rw [matchToks_lits] at h
  rcases h with ⟨s3, hs2, h⟩
  rw [matchToks_star] at h
  rcases h with ⟨b, s4, hs3, hb, h⟩
  rw [matchToks_lits_end] at h
  subst h
  exact ⟨a, b, ha, hb, by rw [hf, hs1, hs2, hs3]⟩

lemma isPrefixList_self_append (p t : List Char) : isPrefixList p (p ++ t) = true := by
  induction p with
  | nil => rfl
  | cons a as ih => simp [isPrefixList, ih]

lemma hasSubList_nil (s : List Char) : hasSubList [] s = true := by
  cases s <;> simp [hasSubList, isPrefixList]

lemma hasSubList_mid (p x y : List Char) : hasSubList p (x ++ (p ++ y)) = true := by
  induction x with
  | nil =>
    rw [List.nil_append]
    cases p with
    | nil => exact hasSubList_nil y
    | cons a as => simp [hasSubList, isPrefixList, isPrefixList_self_append]
  | cons a x ih => simp [hasSubList, ih]

lemma pyContains_orders (f : String) (x y : List Char)
    (h : f.data = x ++ ("orders".data ++ y)) : pyContains f "orders" = true := by
  unfold pyContains
  rw [h]
  exact hasSubList_mid _ _ _

lemma pyEndsWith_tsx (f : String) (l : List Char)
    (h : f.data = l ++ ".tsx".data) : pyEndsWith f ".tsx" = true := by
  unfold pyEndsWith
  rw [h, List.reverse_append]
  exact isPrefixList_self_append _ _

lemma account_orders_split :
    "/account/orders/".data = "/account/".data ++ ("orders".data ++ "/".data) := by
  decide

lemma page_tsx_split : "/page.tsx".data = "/page".data ++ ".tsx".data := by
  decide

lemma classMatch_locale (c : Char) :
    classMatchBody "locale".data c = true ↔
      ('l' = c ∨ 'o' = c ∨ 'c' = c ∨ 'a' = c ∨ 'e' = c) := by
  show (('l' == c) || (('o' == c) || (('c' == c) || (('a' == c)
    || (('l' == c) || (('e' == c) || false)))))) = true ↔ _
  simp only [Bool.or_eq_true, beq_iff_eq, Bool.false_eq_true, or_false]
  tauto

lemma classMatch_id (c : Char) :
    classMatchBody "id".data c = true ↔ ('i' = c ∨ 'd' = c) := by
  show (('i' == c) || (('d' == c) || false)) = true ↔ _
  simp only [Bool.or_eq_true, beq_iff_eq, Bool.false_eq_true, or_false]

/-- C9: the filter on line 13 is vacuous: every path that the glob
semantics can produce for either hardcoded pattern contains the substring
"orders" and ends with ".tsx", so every glob match passes the filter and is
processed. -/
theorem C9_filter_vacuous (f : String)
    (h : globMatch pattern1 f = true ∨ globMatch pattern2 f = true) :
    accept f = true := by
  unfold accept
  rw [Bool.and_eq_true]
  rcases h with h | h
  · rcases pattern1_shape f h with ⟨c, d, _, _, hf⟩
    constructor
    · refine pyContains_orders f ("src/app/".data ++ c :: "/account/".data)
        ("/".data ++ d :: "/page.tsx".data) ?_
      rw [hf, account_orders_split]
      simp [List.append_assoc]
    · refine pyEndsWith_tsx f
        ("src/app/".data ++ c :: ("/account/orders/".data ++ d :: "/page".data)) ?_
      rw [hf, page_tsx_split]
      simp [List.append_assoc]
  · rcases pattern2_shape f h with ⟨a, b, _, _, hf⟩
    constructor
    · refine pyContains_orders f ("src/app/".data ++ (a ++ "/account/".data))
        ("/".data ++ (b ++ "/page.tsx".data)) ?_
      rw [hf, account_orders_split]
      simp [List.append_assoc]
    · refine pyEndsWith_tsx f
        ("src/app/".data ++ (a ++ ("/account/orders/".data ++ (b ++ "/page".data)))) ?_
      rw [hf, page_tsx_split]
      simp [List.append_assoc]

/-- Witness for C9 at a concrete path matched by the second pattern. -/
theorem C9_filter_vacuous_witness : accept samplePath = true :=
  C9_filter_vacuous samplePath (Or.inr (by decide))

/-- C10: the bracketed segments of the first pattern are glob character
classes, not literal directory names: a path matches the first pattern only
when the `[locale]` position is one single character among l,o,c,a,e and the
`[id]` position one single character among i,d; the path of the project's
actual layout, with literal directories `[locale]` and `[id]`, is not
matched by the first pattern but is matched by the second, wildcard
pattern. -/
theorem C10_brackets_are_classes (f : String) (h : globMatch pattern1 f = true) :
    (∃ c d, ('l' = c ∨ 'o' = c ∨ 'c' = c ∨ 'a' = c ∨ 'e' = c) ∧ ('i' = d ∨ 'd' = d) ∧
      f.data = "src/app/".data ++ c :: ("/account/orders/".data ++ d :: "/page.tsx".data)) ∧
    globMatch pattern1 "src/app/[locale]/account/orders/[id]/page.tsx" = false ∧
    globMatch pattern2 "src/app/[locale]/account/orders/[id]/page.tsx" = true := by
  refine ⟨?_, by decide, by decide⟩
  rcases pattern1_shape f h with ⟨c, d, hc, hd, hf⟩
  exact ⟨c, d, (classMatch_locale c).mp hc, (classMatch_id d).mp hd, hf⟩

/-- Witness for C10 at a concrete single-character-segment path. -/
theorem C10_brackets_are_classes_witness :
    (∃ c d, ('l' = c ∨ 'o' = c ∨ 'c' = c ∨ 'a' = c ∨ 'e' = c) ∧ ('i' = d ∨ 'd' = d) ∧
      ("src/app/l/account/orders/i/page.tsx" : String).data
        = "src/app/".data ++ c :: ("/account/orders/".data ++ d :: "/page.tsx".data)) ∧
    globMatch pattern1 "src/app/[locale]/account/orders/[id]/page.tsx" = false ∧
    globMatch pattern2 "src/app/[locale]/account/orders/[id]/page.tsx" = true :=
  C10_brackets_are_classes "src/app/l/account/orders/i/page.tsx" (by decide)
